import Mathlib

/-!
# RIPng failure/recovery scenarios: topology, interface state and schedule

A shallow embedding of `Scenario-1.cc` and `Scenario-5.cc`.  Both programs build a
small routed network out of two-node CSMA segments, give some router interfaces an
administrative cost, exclude the host-facing interfaces from the protocol, pick a
loop-suppression policy from a command-line string and schedule `TearDownLink`
events on the discrete-event simulator.

The embedding keeps the programs' own vocabulary: `NodeContainer` segments in the
order in which addresses are assigned to them, interface indices counted per node
(index 0 is the loopback), the `ExcludeInterface` and `SetInterfaceMetric` calls as
written, and `TearDownLink` as two `SetDown` calls.
-/

namespace RipNg

/-! ## Nodes, segments and interface numbering -/

/-- The nodes created in `main`: the two hosts and the routers (`e` exists in
`Scenario-5.cc` only). -/
inductive Node where
  | src | dst | a | b | c | d | e
  deriving DecidableEq, Repr, Fintype

/-- One scheduled call `Simulator::Schedule (Seconds (time), &TearDownLink, nodeA, nodeB,
interfaceA, interfaceB)`. All times of the scenario files are whole seconds and are kept
in seconds. -/
structure Event where
  time : Nat
  nodeA : Node
  nodeB : Node
  interfaceA : Nat
  interfaceB : Nat
  deriving DecidableEq, Repr

/-- What `main` configures before `Simulator::Run`. -/
structure Scenario where
  /-- `NodeContainer net1 .. netN`, in the order `ipv6.Assign (ndc1) .. (ndcN)`. -/
  nets : List (List Node)
  /-- `NodeContainer routers (...)`. -/
  routers : List Node
  /-- `NodeContainer nodes (src, dst)`. -/
  nodes : List Node
  /-- The `ripNgRouting.ExcludeInterface (node, interface)` calls. -/
  excluded : List (Node × Nat)
  /-- The `ripNgRouting.SetInterfaceMetric (node, interface, metric)` calls, in order. -/
  metrics : List (Node × Nat × Nat)
  /-- The `Simulator::Schedule (..., &TearDownLink, ...)` calls, in order. -/
  teardowns : List Event
  /-- `apps.Start (Seconds (..))`. -/
  appStart : Nat
  /-- `apps.Stop (Seconds (..))`. -/
  appStop : Nat
  /-- `Simulator::Stop (Seconds (..))`. -/
  simStop : Nat
  /-- `maxPacketCount`. -/
  maxPacketCount : Nat
  /-- `interPacketInterval`, in seconds. -/
  interPacketInterval : Nat

/-- The configuration built by `main` in `Scenario-1.cc`. -/
def scenario1 : Scenario where
  nets := [[.src, .a], [.a, .b], [.a, .c], [.b, .d], [.c, .d], [.d, .dst]]
  routers := [.a, .b, .c, .d]
  nodes := [.src, .dst]
  excluded := [(.a, 1), (.d, 3)]
  metrics := [(.a, 2, 5), (.a, 3, 2), (.b, 1, 5), (.b, 2, 3), (.c, 1, 2), (.c, 2, 4), (.d, 1, 3), (.d, 2, 4)]
  teardowns := [⟨30, .a, .c, 3, 1⟩]
  appStart := 1
  appStop := 110
  simStop := 120
  maxPacketCount := 100
  interPacketInterval := 1

/-- The configuration built by `main` in `Scenario-5.cc`. -/
def scenario5 : Scenario where
  nets := [[.src, .a], [.a, .b], [.a, .c], [.b, .d], [.b, .e], [.c, .d], [.d, .e], [.e, .dst]]
  routers := [.a, .b, .c, .d, .e]
  nodes := [.src, .dst]
  excluded := [(.a, 1), (.e, 3)]
  metrics := [(.b, 2, 2), (.d, 1, 2), (.c, 2, 3), (.d, 2, 3)]
  teardowns := [⟨30, .b, .e, 3, 1⟩, ⟨75, .b, .d, 2, 1⟩]
  appStart := 1
  appStop := 160
  simStop := 170
  maxPacketCount := 150
  interPacketInterval := 1

/-- Positions (0-based, in assignment order) of the segments that contain node `n`. -/
def attached (sc : Scenario) (n : Node) : List Nat :=
  (List.range sc.nets.length).filter (fun k => decide (n ∈ sc.nets.getD k []))

/-- The segment behind interface `i` of node `n`: interface 0 is the loopback, interface
`k ≥ 1` is the `k`-th segment, in assignment order, that contains the node. -/
def networkOf (sc : Scenario) (n : Node) (i : Nat) : Option Nat :=
  match i with
  | 0 => none
  | k + 1 => (attached sc n)[k]?

/-- The interface index of node `n` on segment number `k`, when `n` is on that segment. -/
def interfaceOn (sc : Scenario) (n : Node) (k : Nat) : Option Nat :=
  if k ∈ attached sc n then some ((attached sc n).indexOf k + 1) else none

/-! ## Interface metrics -/

/-- The table `m_interfaceMetrics` of the helper: a cost per node and interface. An
interface without an entry has cost 1. -/
def MetricTable := Node → Nat → Nat

/-- One call `SetInterfaceMetric (node, interface, metric)`: the entry is overwritten. -/
def SetInterfaceMetric (node : Node) (interface : Nat) (metric : Nat) (tbl : MetricTable) :
    MetricTable :=
  fun n i => if n = node ∧ i = interface then metric else tbl n i

/-- The metric table after all `SetInterfaceMetric` calls of the scenario. -/
def interfaceMetric (sc : Scenario) : MetricTable :=
  sc.metrics.foldl (fun tbl call => SetInterfaceMetric call.1 call.2.1 call.2.2 tbl) (fun _ _ => 1)

/-! ## Interface state and `TearDownLink` -/

/-- The up/down flag of every interface of every node (`true` is up). -/
def IfState := Node → Nat → Bool

/-- Modelled from the spec: the library call `node->GetObject<Ipv6> ()->SetDown (interface)`,
which is not part of the scenario files; it marks that one interface down ("supports
marking an interface up/down") and touches no other. -/
def SetDown (node : Node) (interface : Nat) (st : IfState) : IfState :=
  fun n i => if n = node ∧ i = interface then false else st n i

/-- The function `TearDownLink` of both files: two `SetDown` calls, one per end. -/
def TearDownLink (nodeA nodeB : Node) (interfaceA interfaceB : Nat) (st : IfState) : IfState :=
  SetDown nodeB interfaceB (SetDown nodeA interfaceA st)

/-- The state once addresses are assigned: the loopback and every interface that has a
segment behind it are up. -/
def initialState (sc : Scenario) : IfState :=
  fun n i => i = 0 ∨ (networkOf sc n i).isSome

/-! ## The event schedule -/

/-- The action of one scheduled event. -/
def Event.fire (ev : Event) (st : IfState) : IfState :=
  TearDownLink ev.nodeA ev.nodeB ev.interfaceA ev.interfaceB st

/-- The simulator's run up to and including virtual time `t`: the events are taken in
time order, ties in scheduling order, and those due at or before `t` are executed. -/
def runUntil (events : List Event) (t : Nat) (st : IfState) : IfState :=
  ((events.insertionSort (fun x y => x.time ≤ y.time)).filter (fun ev => ev.time ≤ t)).foldl
    (fun s ev => ev.fire s) st

/-- The interface state of a scenario at virtual time `t` (seconds). -/
def stateAt (sc : Scenario) (t : Nat) : IfState :=
  runUntil sc.teardowns t (initialState sc)

/-! ## Usable links, hops and paths -/

/-- The usable hops out of `x` in state `st`, one per neighbour on a segment whose
interfaces are up at both ends, with the cost `x` has on that interface. -/
def hops (sc : Scenario) (st : IfState) (x : Node) : List (Node × Nat) :=
  (attached sc x).enum.flatMap fun (ik : Nat × Nat) =>
    if st x (ik.1 + 1) then
      ((sc.nets.getD ik.2 []).filter fun y =>
          decide (y ≠ x) && (match interfaceOn sc y ik.2 with
            | some j => st y j
            | none => false)).map fun y => (y, interfaceMetric sc x (ik.1 + 1))
    else []

/-- The cost of the hop from `x` to `y`: the cheapest usable link between them. -/
def hopCost (sc : Scenario) (st : IfState) (x y : Node) : Option Nat :=
  (((hops sc st x).filter fun h => h.1 = y).map Prod.snd).min?

/-- The total cost of a node sequence, when each consecutive pair is a usable hop. -/
def pathCost (sc : Scenario) (st : IfState) : List Node → Option Nat
  | [] => none
  | [_] => some 0
  | x :: y :: rest =>
    match hopCost sc st x y, pathCost sc st (y :: rest) with
    | some c, some r => some (c + r)
    | _, _ => none

/-- A path from `s` to `t` of cost `c`: a node sequence starting at `s`, ending at `t`,
each step a usable hop. -/
def IsPath (sc : Scenario) (st : IfState) (s t : Node) (p : List Node) (c : Nat) : Prop :=
  p.head? = some s ∧ p.getLast? = some t ∧ pathCost sc st p = some c

/-- A simple path visits no node twice. -/
def IsSimplePath (sc : Scenario) (st : IfState) (s t : Node) (p : List Node) (c : Nat) : Prop :=
  IsPath sc st s t p c ∧ p.Nodup

/-- Enumeration of the simple paths from `x` to `t` that avoid `visited`, by depth-first
search bounded by `fuel` nodes. -/
def simplePaths (sc : Scenario) (st : IfState) : Nat → List Node → Node → Node → List (List Node)
  | 0, _, _, _ => []
  | fuel + 1, visited, x, t =>
    if x = t then [[x]]
    else
      ((((hops sc st x).map Prod.fst).dedup.filter fun y => decide (y ∉ x :: visited)).flatMap
        fun y => (simplePaths sc st fuel (x :: visited) y t).map (x :: ·))

/-- The minimum-cost path from `s` to `t`: `p` is a simple path of cost `c`, no path from
`s` to `t` (simple or not) is cheaper, and no other simple path has the same cost. -/
def IsMinCostPath (sc : Scenario) (st : IfState) (s t : Node) (p : List Node) (c : Nat) : Prop :=
  IsSimplePath sc st s t p c ∧ (∀ q k, IsPath sc st s t q k → c ≤ k) ∧
    (∀ q, IsSimplePath sc st s t q c → q = p)

/-- The node list of the segment behind interface `i` of node `n`. -/
def segmentAt (sc : Scenario) (n : Node) (i : Nat) : Option (List Node) :=
  (networkOf sc n i).bind fun k => sc.nets[k]?

/-- The cost node `x` has on its interface towards `y`: the metric of `x`'s interface on
the first segment that holds both nodes. -/
def endCost (sc : Scenario) (x y : Node) : Option Nat :=
  ((attached sc x).enum.find? fun (ik : Nat × Nat) => decide (y ∈ sc.nets.getD ik.2 [])).map
    fun ik => interfaceMetric sc x (ik.1 + 1)

/-- Modelled from the spec: the infinity sentinel of the metric ("e.g. 16 for a 1–15 usable
range"); the constant itself belongs to the protocol library, not to the scenario files. -/
def infinity : Nat := 16

/-- The costs configured on segment number `k`, one per node of the segment in the order
of its `NodeContainer` (`none` for a node without an interface on it). -/
def costsOn (sc : Scenario) (k : Nat) : List (Option Nat) :=
  (sc.nets.getD k []).map fun y => (interfaceOn sc y k).map (interfaceMetric sc y)

/-- Whether interface `i` of node `r` is on a segment that holds a node outside `routers`. -/
def facesHost (sc : Scenario) (r : Node) (i : Nat) : Bool :=
  match segmentAt sc r i with
  | some seg => seg.any fun h => decide (h ∉ sc.routers)
  | none => false

/-! ## What the header comments document -/

/-- Header of `Scenario-1.cc`: "A to B : 5, B to D : 3, A to C : 2, C to D : 4". -/
def headerCosts1 : List (Node × Node × Nat) :=
  [(.a, .b, 5), (.b, .d, 3), (.a, .c, 2), (.c, .d, 4)]

/-- Header of `Scenario-5.cc`: "B to D : 2, C to D : 3"; all other links have cost 1. -/
def headerCosts5 : List (Node × Node × Nat) :=
  [(.b, .d, 2), (.c, .d, 3)]

/-- Header of `Scenario-1.cc`: "the link between A and C will break". -/
def headerBreaks1 : List (Node × Node) := [(.a, .c)]

/-- Header of `Scenario-5.cc`: "the link between B and E will break", then "the link
between B and D will break". -/
def headerBreaks5 : List (Node × Node) := [(.b, .e), (.b, .d)]

/-- One line of a header's timeline: a link breaks, or the routers have recovered, so many
seconds after the previous line's instant (after the start for the first line). -/
inductive HeaderStep where
  | breaks (after : Nat)
  | recovers (after : Nat)
  deriving DecidableEq, Repr

/-- Header of `Scenario-1.cc`: "After 30 seconds, the link between A and C will break",
"After 31 seconds from the failure, the routers will recover". -/
def headerTimeline1 : List HeaderStep := [.breaks 30, .recovers 31]

/-- Header of `Scenario-5.cc`: "After 30 seconds, the link between B and E will break",
"After 5 seconds from the failure, the routers will recovery", "After 40 seconds from
recovery, the link between B and D will break", "After 43 seconds from the failure, the
routers will recover again". -/
def headerTimeline5 : List HeaderStep := [.breaks 30, .recovers 5, .breaks 40, .recovers 43]

/-- The instants at which the documented links break, counted from `now`. -/
def breakInstants : List HeaderStep → Nat → List Nat
  | [], _ => []
  | .breaks n :: rest, now => (now + n) :: breakInstants rest (now + n)
  | .recovers n :: rest, now => breakInstants rest (now + n)

/-- The instants at which the documented recoveries are complete, counted from `now`. -/
def recoveryInstants : List HeaderStep → Nat → List Nat
  | [], _ => []
  | .breaks n :: rest, now => recoveryInstants rest (now + n)
  | .recovers n :: rest, now => (now + n) :: recoveryInstants rest (now + n)

/-- Modelled from the spec: the probing application is library code outside the scenario
files; configured with `MaxPackets`, `Interval`, `Start` and `Stop`, it sends its first
packet at `appStart`, one more every `interPacketInterval`, `maxPacketCount` packets at
most, and none once it is stopped. -/
def sendTimes (sc : Scenario) : List Nat :=
  ((List.range sc.maxPacketCount).map fun k => sc.appStart + k * sc.interPacketInterval).filter
    fun t => decide (t < sc.appStop)

/-- The time of the last packet the application sends, if it sends any. -/
def lastSend (sc : Scenario) : Option Nat :=
  (sendTimes sc).getLast?

/-! ## Loop-suppression policy selection -/

/-- The enumeration `RipNg::SplitHorizonType_e` named by the scenario files. -/
inductive SplitHorizonType where
  | NO_SPLIT_HORIZON | SPLIT_HORIZON | POISON_REVERSE
  deriving DecidableEq, Repr

/-- The initial value of the variable: `std::string SplitHorizon ("PoisonReverse")`. -/
def defaultSplitHorizon : String := "PoisonReverse"

/-- The effect of `cmd.AddValue ("splitHorizonStrategy", ..., SplitHorizon)` followed by
`cmd.Parse`: the variable keeps its initial value unless the argument is given. -/
def parseSplitHorizon (arg : Option String) : String :=
  match arg with
  | some s => s
  | none => defaultSplitHorizon

/-- The `if / else if / else` of `Scenario-1.cc` that sets `ns3::RipNg::SplitHorizon`. -/
def selectStrategy1 (SplitHorizon : String) : SplitHorizonType :=
  if SplitHorizon = "NoSplitHorizon" then .NO_SPLIT_HORIZON
  else if SplitHorizon = "SplitHorizon" then .SPLIT_HORIZON
  else .POISON_REVERSE

/-- The `if / else if / else` of `Scenario-5.cc` that sets `ns3::RipNg::SplitHorizon`. -/
def selectStrategy5 (SplitHorizon : String) : SplitHorizonType :=
  if SplitHorizon = "NoSplitHorizon" then .NO_SPLIT_HORIZON
  else if SplitHorizon = "SplitHorizon" then .SPLIT_HORIZON
  else .POISON_REVERSE

/-! ## Distance tables used as certificates

Each table gives, for one topology, the distance of every node to the destination; a
table that never drops by more than a hop's cost bounds every path from below. -/

/-- Distances to `d` in Scenario-1 before the teardown. -/
def distD1 : Node → Nat
  | .src => 7 | .a => 6 | .b => 3 | .c => 4 | .d => 0 | .dst => 1 | .e => 0

/-- Distances to `d` in Scenario-1 once link A–C is down. -/
def distD1Down : Node → Nat
  | .src => 9 | .a => 8 | .b => 3 | .c => 4 | .d => 0 | .dst => 1 | .e => 0

/-- Distances to `e` in Scenario-5 before the first teardown. -/
def distE5 : Node → Nat
  | .src => 3 | .a => 2 | .b => 1 | .c => 3 | .d => 1 | .e => 0 | .dst => 1

/-- Distances to `e` in Scenario-5 once link B–E is down. -/
def distE5Down1 : Node → Nat
  | .src => 5 | .a => 4 | .b => 3 | .c => 4 | .d => 1 | .e => 0 | .dst => 1

/-- Distances to `e` in Scenario-5 once links B–E and B–D are down. -/
def distE5Down2 : Node → Nat
  | .src => 6 | .a => 5 | .b => 6 | .c => 4 | .d => 1 | .e => 0 | .dst => 1

instance (sc : Scenario) (st : IfState) (s t : Node) (p : List Node) (c : Nat) :
    Decidable (IsPath sc st s t p c) := by
  unfold IsPath; infer_instance

instance (sc : Scenario) (st : IfState) (s t : Node) (p : List Node) (c : Nat) :
    Decidable (IsSimplePath sc st s t p c) := by
  unfold IsSimplePath; infer_instance

/-! ## General facts about hops and paths -/

/-- A hop with a cost leads to a listed neighbour. -/
theorem mem_hops_of_hopCost {sc : Scenario} {st : IfState} {x y : Node} {c : Nat}
    (h : hopCost sc st x y = some c) : y ∈ (hops sc st x).map Prod.fst := by
  unfold hopCost at h
  have hc := (List.min?_eq_some_iff'.1 h).1
  simp only [List.mem_map, List.mem_filter, decide_eq_true_eq] at hc
  obtain ⟨q, ⟨hq, hqy⟩, _⟩ := hc
  exact List.mem_map.2 ⟨q, hq, hqy⟩

/-- The tail of a path is a path from its second node. -/
theorem pathCost_cons_cons {sc : Scenario} {st : IfState} {x y : Node} {rest : List Node}
    {c : Nat} (h : pathCost sc st (x :: y :: rest) = some c) :
    ∃ c1 r, hopCost sc st x y = some c1 ∧ pathCost sc st (y :: rest) = some r ∧ c = c1 + r := by
  rw [pathCost] at h
  split at h
  · rename_i c1 r h1 h2
    exact ⟨c1, r, h1, h2, by simpa using h.symm⟩
  · simp at h

/-- The depth-first enumeration finds every simple path that fits in the fuel. -/
theorem mem_simplePaths (sc : Scenario) (st : IfState) (t : Node) :
    ∀ (fuel : Nat) (p : List Node) (visited : List Node) (x : Node) (c : Nat),
      IsSimplePath sc st x t p c → (∀ v ∈ visited, v ∉ p) → p.length ≤ fuel →
      p ∈ simplePaths sc st fuel visited x t := by
  intro fuel
  induction fuel with
  | zero =>
    intro p visited x c hp _ hlen
    obtain ⟨⟨hhead, _, _⟩, _⟩ := hp
    cases p with
    | nil => simp at hhead
    | cons _ _ => simp at hlen
  | succ fuel ih =>
    intro p visited x c hp hvis hlen
    obtain ⟨⟨hhead, hlast, hcost⟩, hnd⟩ := hp
    match p, hhead, hlast, hcost, hnd, hvis, hlen with
    | [], hhead, _, _, _, _, _ => simp at hhead
    | [z], hhead, hlast, _, _, _, _ =>
      simp at hhead hlast
      subst hhead
      subst hlast
      simp [simplePaths]
    | z :: y :: rest, hhead, hlast, hcost, hnd, hvis, hlen =>
      simp at hhead
      subst hhead
      obtain ⟨c1, r, hc1, hr, _⟩ := pathCost_cons_cons hcost
      have hlast' : (y :: rest).getLast? = some t := by
        simpa [List.getLast?_cons_cons] using hlast
      have hzt : z ≠ t := by
        intro hzt
        have : t ∈ y :: rest := List.mem_of_getLast?_eq_some hlast'
        exact (List.nodup_cons.1 hnd).1 (hzt ▸ this)
      have hnd' : (y :: rest).Nodup := (List.nodup_cons.1 hnd).2
      have hyz : y ≠ z := by
        intro hyz
        exact (List.nodup_cons.1 hnd).1 (hyz ▸ List.mem_cons_self _ _)
      have hyvis : y ∉ visited := fun hy => hvis y hy (by simp)
      have hrec : (y :: rest) ∈ simplePaths sc st fuel (z :: visited) y t := by
        apply ih (y :: rest) (z :: visited) y r ⟨⟨rfl, hlast', hr⟩, hnd'⟩
        · intro v hv hmem
          rcases List.mem_cons.1 hv with hvz | hv
          · exact (List.nodup_cons.1 hnd).1 (hvz ▸ hmem)
          · exact hvis v hv (List.mem_cons_of_mem _ hmem)
        · simpa using hlen
      rw [simplePaths, if_neg hzt]
      refine List.mem_flatMap.2 ⟨y, ?_, List.mem_map.2 ⟨y :: rest, hrec, rfl⟩⟩
      refine List.mem_filter.2 ⟨List.mem_dedup.2 (mem_hops_of_hopCost hc1), ?_⟩
      simp [hyz, hyvis]

/-- With seven nodes, fuel 7 finds every simple path. -/
theorem simplePaths_complete {sc : Scenario} {st : IfState} {s t : Node} {p : List Node} {c : Nat}
    (hp : IsSimplePath sc st s t p c) : p ∈ simplePaths sc st 7 [] s t := by
  apply mem_simplePaths sc st t 7 p [] s c hp (by simp)
  have h := hp.2.length_le_card
  have hcard : Fintype.card Node = 7 := by rfl
  omega

/-- A potential `h` that vanishes at `t` and never drops by more than a hop's cost is a
lower bound for the cost of every path to `t`, simple or not. -/
theorem potential_le_pathCost (sc : Scenario) (st : IfState) (h : Node → Nat) (t : Node)
    (ht : h t = 0)
    (hstep : ∀ x y c, hopCost sc st x y = some c → h x ≤ c + h y) :
    ∀ (p : List Node) (s : Node) (c : Nat), IsPath sc st s t p c → h s ≤ c := by
  intro p
  induction p with
  | nil => intro s c hp; simp [IsPath] at hp
  | cons z rest ih =>
    intro s c ⟨hhead, hlast, hcost⟩
    simp at hhead
    subst hhead
    cases rest with
    | nil =>
      simp at hlast
      subst hlast
      omega
    | cons y rest =>
      obtain ⟨c1, r, hc1, hr, hc⟩ := pathCost_cons_cons hcost
      have hlast' : (y :: rest).getLast? = some t := by
        simpa [List.getLast?_cons_cons] using hlast
      have h1 := ih y r ⟨rfl, hlast', hr⟩
      have h2 := hstep z y c1 hc1
      omega

/-- A distance table checked hop by hop is a valid lower bound for every path. -/
theorem lower_bound_of_table {sc : Scenario} {st : IfState} {h : Node → Nat} {t : Node}
    (ht : h t = 0) (hall : ∀ x y : Node, ∀ c ∈ hopCost sc st x y, h x ≤ c + h y)
    (s : Node) (p : List Node) (c : Nat) (hp : IsPath sc st s t p c) : h s ≤ c :=
  potential_le_pathCost sc st h t ht (fun x y c hc => hall x y c hc) p s c hp

/-- A simple path is one of the enumerated ones. -/
theorem mem_of_enumeration {sc : Scenario} {st : IfState} {s t : Node} {l : List (List Node)}
    (henum : simplePaths sc st 7 [] s t = l) {p : List Node} {c : Nat}
    (hp : IsSimplePath sc st s t p c) : p ∈ l :=
  henum ▸ simplePaths_complete hp

/-- The cost of a path is determined by its node sequence. -/
theorem cost_unique {sc : Scenario} {st : IfState} {s t : Node} {p : List Node} {c k : Nat}
    (hp : IsSimplePath sc st s t p c) (hk : pathCost sc st p = some k) : c = k := by
  have := hp.1.2.2
  rw [hk] at this
  exact (Option.some.inj this).symm

/-! ## The schedules of the two scenarios -/

/-- Scenario-1 before the teardown: nothing has happened. -/
theorem stateAt_scenario1_before {t : Nat} (h : t < 30) :
    stateAt scenario1 t = initialState scenario1 := by
  have hs : scenario1.teardowns.insertionSort (fun x y => x.time ≤ y.time)
      = [⟨30, .a, .c, 3, 1⟩] := by decide
  have h30 : ¬ 30 ≤ t := by omega
  simp [stateAt, runUntil, hs, List.filter, h30]

/-- Scenario-1 from the teardown on: the one event has run. -/
theorem stateAt_scenario1_after {t : Nat} (h : 30 ≤ t) :
    stateAt scenario1 t = TearDownLink .a .c 3 1 (initialState scenario1) := by
  have hs : scenario1.teardowns.insertionSort (fun x y => x.time ≤ y.time)
      = [⟨30, .a, .c, 3, 1⟩] := by decide
  simp [stateAt, runUntil, hs, List.filter, h, Event.fire]

/-- The order in which the simulator takes the events of Scenario-5. -/
theorem scenario5_event_order :
    scenario5.teardowns.insertionSort (fun x y => x.time ≤ y.time)
      = [⟨30, .b, .e, 3, 1⟩, ⟨75, .b, .d, 2, 1⟩] := by decide

/-- Scenario-5 before the first teardown. -/
theorem stateAt_scenario5_before {t : Nat} (h : t < 30) :
    stateAt scenario5 t = initialState scenario5 := by
  have h30 : ¬ 30 ≤ t := by omega
  have h75 : ¬ 75 ≤ t := by omega
  simp [stateAt, runUntil, scenario5_event_order, List.filter, h30, h75]

/-- Scenario-5 between the two teardowns. -/
theorem stateAt_scenario5_between {t : Nat} (h : 30 ≤ t) (h' : t < 75) :
    stateAt scenario5 t = TearDownLink .b .e 3 1 (initialState scenario5) := by
  have h75 : ¬ 75 ≤ t := by omega
  simp [stateAt, runUntil, scenario5_event_order, List.filter, h, h75, Event.fire]

/-- Scenario-5 from the second teardown on. -/
theorem stateAt_scenario5_after {t : Nat} (h : 75 ≤ t) :
    stateAt scenario5 t
      = TearDownLink .b .d 2 1 (TearDownLink .b .e 3 1 (initialState scenario5)) := by
  have h30 : 30 ≤ t := by omega
  simp [stateAt, runUntil, scenario5_event_order, List.filter, h, h30, Event.fire]

/-! ## Scenario-1 -/

/-- With all links up, A→C→D at cost 6 is the minimum-cost path from A to D. -/
theorem scenario1_up_min :
    IsMinCostPath scenario1 (initialState scenario1) .a .d [.a, .c, .d] 6 := by
  refine ⟨by decide, fun q k hq => lower_bound_of_table (h := distD1) (t := .d) rfl (by decide) .a q k hq, ?_⟩
  intro q hq
  have hmem := mem_of_enumeration
    (l := [[.a, .b, .d], [.a, .c, .d]]) (by decide) hq
  simp only [List.mem_cons, List.mem_singleton, List.not_mem_nil, or_false] at hmem
  rcases hmem with rfl | rfl
  · exact absurd (cost_unique hq (k := 8) (by decide)) (by decide)
  · rfl

/-- With all links up, the simple paths from A to D are A→C→D and A→B→D. -/
theorem scenario1_up_paths (p : List Node) (c : Nat)
    (hp : IsSimplePath scenario1 (initialState scenario1) .a .d p c) :
    p = [.a, .c, .d] ∨ p = [.a, .b, .d] := by
  have hmem := mem_of_enumeration
    (l := [[.a, .b, .d], [.a, .c, .d]]) (by decide) hp
  simp only [List.mem_cons, List.mem_singleton, List.not_mem_nil, or_false] at hmem
  tauto

/-- C1. Scenario A, initial state: over the graph built by `Scenario-1.cc` with the costs
set by `SetInterfaceMetric`, the minimum-cost path from A to D is A→C→D, its cost is
2 + 4 = 6, and the only other simple path is A→B→D, whose cost 5 + 3 = 8 is strictly
larger. -/
theorem scenario1_initial_shortest_path :
    IsMinCostPath scenario1 (initialState scenario1) .a .d [.a, .c, .d] 6 ∧
    hopCost scenario1 (initialState scenario1) .a .c = some 2 ∧
    hopCost scenario1 (initialState scenario1) .c .d = some 4 ∧
    IsSimplePath scenario1 (initialState scenario1) .a .d [.a, .b, .d] 8 ∧
    hopCost scenario1 (initialState scenario1) .a .b = some 5 ∧
    hopCost scenario1 (initialState scenario1) .b .d = some 3 ∧
    (∀ p c, IsSimplePath scenario1 (initialState scenario1) .a .d p c →
      p = [.a, .c, .d] ∨ p = [.a, .b, .d]) ∧
    (2 + 4 = 6 ∧ 5 + 3 = 8 ∧ 6 < 8) :=
  ⟨scenario1_up_min, by decide, by decide, by decide, by decide, by decide,
    scenario1_up_paths, by decide⟩

/-- Once link A–C is down, A→B→D at cost 8 is the minimum-cost path from A to D. -/
theorem scenario1_down_min :
    IsMinCostPath scenario1 (TearDownLink .a .c 3 1 (initialState scenario1)) .a .d
      [.a, .b, .d] 8 := by
  refine ⟨by decide,
    fun q k hq => lower_bound_of_table (h := distD1Down) (t := .d) rfl (by decide) .a q k hq, ?_⟩
  intro q hq
  have hmem := mem_of_enumeration (l := [[.a, .b, .d]]) (by decide) hq
  simpa using hmem

/-- Once link A–C is down, A→B→D is the only simple path from A to D. -/
theorem scenario1_down_paths (p : List Node) (c : Nat)
    (hp : IsSimplePath scenario1 (TearDownLink .a .c 3 1 (initialState scenario1)) .a .d p c) :
    p = [.a, .b, .d] := by
  have hmem := mem_of_enumeration (l := [[.a, .b, .d]]) (by decide) hp
  simpa using hmem

/-- C2. Scenario A, after the failure: from the teardown event at t = 30 s to the end of the
run, both ends of link A–C are down, there is no usable hop between A and C, the only
simple path from A to D is A→B→D, and the minimum cost from A to D is 8. -/
theorem scenario1_after_teardown (t : Nat) (h30 : 30 ≤ t) (_hstop : t ≤ scenario1.simStop) :
    stateAt scenario1 t .a 3 = false ∧ stateAt scenario1 t .c 1 = false ∧
    networkOf scenario1 .a 3 = some 2 ∧ networkOf scenario1 .c 1 = some 2 ∧
    scenario1.nets[2]? = some [.a, .c] ∧
    hopCost scenario1 (stateAt scenario1 t) .a .c = none ∧
    hopCost scenario1 (stateAt scenario1 t) .c .a = none ∧
    (∀ p c, IsSimplePath scenario1 (stateAt scenario1 t) .a .d p c → p = [.a, .b, .d]) ∧
    IsMinCostPath scenario1 (stateAt scenario1 t) .a .d [.a, .b, .d] 8 := by
  rw [stateAt_scenario1_after h30]
  exact ⟨by decide, by decide, by decide, by decide, by decide, by decide, by decide,
    scenario1_down_paths, scenario1_down_min⟩

/-- C2 at the instant of the teardown, t = 30 s. -/
theorem scenario1_after_teardown_witness :
    30 ≤ 30 ∧ 30 ≤ scenario1.simStop ∧
    IsMinCostPath scenario1 (stateAt scenario1 30) .a .d [.a, .b, .d] 8 :=
  ⟨by decide, by decide, (scenario1_after_teardown 30 (by decide) (by decide)).2.2.2.2.2.2.2.2⟩

/-- C3 as stated fails: at the end of the run interface 3 of A is down although it was up
just before the teardown, so the interface states are not those from before t = 30 s, and
A→C→D is no longer a path. -/
theorem scenario1_not_restored :
    ¬ (∀ n i, stateAt scenario1 scenario1.simStop n i = stateAt scenario1 29 n i) ∧
    stateAt scenario1 29 .a 3 = true ∧ stateAt scenario1 scenario1.simStop .a 3 = false ∧
    pathCost scenario1 (stateAt scenario1 scenario1.simStop) [.a, .c, .d] = none ∧
    ¬ IsMinCostPath scenario1 (stateAt scenario1 scenario1.simStop) .a .d [.a, .c, .d] 6 := by
  have hend : stateAt scenario1 scenario1.simStop
      = TearDownLink .a .c 3 1 (initialState scenario1) :=
    stateAt_scenario1_after (by decide)
  have hpre : stateAt scenario1 29 = initialState scenario1 :=
    stateAt_scenario1_before (by decide)
  rw [hend, hpre]
  refine ⟨?_, by decide, by decide, by decide, ?_⟩
  · intro hall
    exact absurd (hall .a 3) (by decide)
  · intro hmin
    exact absurd hmin.1.1.2.2 (by decide)

/-- C3, amended. Scenario-1 schedules the teardown of link A–C and nothing else: at every
time from t = 30 s to the end of the run both ends of the link are down, every other
interface is in the state it had before the teardown, and the minimum-cost path from A to D
is A→B→D with cost 8. -/
theorem scenario1_stays_down (t : Nat) (h30 : 30 ≤ t) (_hstop : t ≤ scenario1.simStop) :
    scenario1.teardowns = [⟨30, .a, .c, 3, 1⟩] ∧
    stateAt scenario1 t .a 3 = false ∧ stateAt scenario1 t .c 1 = false ∧
    (∀ n i, ¬ (n = .a ∧ i = 3) → ¬ (n = .c ∧ i = 1) →
      stateAt scenario1 t n i = stateAt scenario1 29 n i) ∧
    IsMinCostPath scenario1 (stateAt scenario1 t) .a .d [.a, .b, .d] 8 := by
  rw [stateAt_scenario1_after h30, stateAt_scenario1_before (t := 29) (by decide)]
  refine ⟨rfl, by decide, by decide, ?_, scenario1_down_min⟩
  intro n i hA hC
  simp [TearDownLink, SetDown, hA, hC]

/-- C3, amended, at the end of the run, t = 120 s. -/
theorem scenario1_stays_down_witness :
    30 ≤ 120 ∧ 120 ≤ scenario1.simStop ∧
    stateAt scenario1 120 .a 3 = false ∧ stateAt scenario1 120 .c 1 = false ∧
    IsMinCostPath scenario1 (stateAt scenario1 120) .a .d [.a, .b, .d] 8 :=
  have h := scenario1_stays_down 120 (by decide) (by decide)
  ⟨by decide, by decide, h.2.1, h.2.2.1, h.2.2.2.2⟩

/-! ## Scenario-5 -/

/-- Before the first teardown, A→B→E at cost 2 is the minimum-cost path from A to E. -/
theorem scenario5_up_min :
    IsMinCostPath scenario5 (initialState scenario5) .a .e [.a, .b, .e] 2 := by
  refine ⟨by decide,
    fun q k hq => lower_bound_of_table (h := distE5) (t := .e) rfl (by decide) .a q k hq, ?_⟩
  intro q hq
  have hmem := mem_of_enumeration
    (l := [[.a, .b, .d, .e], [.a, .b, .e], [.a, .c, .d, .b, .e], [.a, .c, .d, .e]])
    (by decide) hq
  simp only [List.mem_cons, List.mem_singleton, List.not_mem_nil, or_false] at hmem
  rcases hmem with rfl | rfl | rfl | rfl
  · exact absurd (cost_unique hq (k := 4) (by decide)) (by decide)
  · rfl
  · exact absurd (cost_unique hq (k := 7) (by decide)) (by decide)
  · exact absurd (cost_unique hq (k := 5) (by decide)) (by decide)

/-- With link B–E down, B→D→E at cost 3 is the minimum-cost path from B to E. -/
theorem scenario5_down1_min_b :
    IsMinCostPath scenario5 (TearDownLink .b .e 3 1 (initialState scenario5)) .b .e
      [.b, .d, .e] 3 := by
  refine ⟨by decide,
    fun q k hq => lower_bound_of_table (h := distE5Down1) (t := .e) rfl (by decide) .b q k hq, ?_⟩
  intro q hq
  have hmem := mem_of_enumeration
    (l := [[.b, .a, .c, .d, .e], [.b, .d, .e]]) (by decide) hq
  simp only [List.mem_cons, List.mem_singleton, List.not_mem_nil, or_false] at hmem
  rcases hmem with rfl | rfl
  · exact absurd (cost_unique hq (k := 6) (by decide)) (by decide)
  · rfl

/-- With link B–E down, A→B→D→E at cost 4 is the minimum-cost path from A to E. -/
theorem scenario5_down1_min_a :
    IsMinCostPath scenario5 (TearDownLink .b .e 3 1 (initialState scenario5)) .a .e
      [.a, .b, .d, .e] 4 := by
  refine ⟨by decide,
    fun q k hq => lower_bound_of_table (h := distE5Down1) (t := .e) rfl (by decide) .a q k hq, ?_⟩
  intro q hq
  have hmem := mem_of_enumeration
    (l := [[.a, .b, .d, .e], [.a, .c, .d, .e]]) (by decide) hq
  simp only [List.mem_cons, List.mem_singleton, List.not_mem_nil, or_false] at hmem
  rcases hmem with rfl | rfl
  · rfl
  · exact absurd (cost_unique hq (k := 5) (by decide)) (by decide)

/-- With links B–E and B–D down, A→C→D→E at cost 5 is the minimum-cost path from A to E. -/
theorem scenario5_down2_min :
    IsMinCostPath scenario5
      (TearDownLink .b .d 2 1 (TearDownLink .b .e 3 1 (initialState scenario5))) .a .e
      [.a, .c, .d, .e] 5 := by
  refine ⟨by decide,
    fun q k hq => lower_bound_of_table (h := distE5Down2) (t := .e) rfl (by decide) .a q k hq, ?_⟩
  intro q hq
  have hmem := mem_of_enumeration (l := [[.a, .c, .d, .e]]) (by decide) hq
  simpa using hmem

/-- With links B–E and B–D down, A→C→D→E is the only simple path from A to E. -/
theorem scenario5_down2_paths (p : List Node) (c : Nat)
    (hp : IsSimplePath scenario5
      (TearDownLink .b .d 2 1 (TearDownLink .b .e 3 1 (initialState scenario5))) .a .e p c) :
    p = [.a, .c, .d, .e] := by
  have hmem := mem_of_enumeration (l := [[.a, .c, .d, .e]]) (by decide) hp
  simpa using hmem

/-- C4. Scenario B, first failure: before the teardown of link B–E at t = 30 s the
minimum-cost path from A to E is A→B→E with cost 2; after it (and before the second
teardown at t = 75 s) the minimum-cost path from B to E is B→D→E with cost 3 and the
minimum-cost path from A to E is A→B→D→E with cost 4, strictly cheaper than A→C→D→E with
cost 5. -/
theorem scenario5_first_failure (t0 t1 : Nat) (h0 : t0 < 30) (h30 : 30 ≤ t1) (h75 : t1 < 75) :
    IsMinCostPath scenario5 (stateAt scenario5 t0) .a .e [.a, .b, .e] 2 ∧
    stateAt scenario5 t1 .b 3 = false ∧ stateAt scenario5 t1 .e 1 = false ∧
    hopCost scenario5 (stateAt scenario5 t1) .b .e = none ∧
    IsMinCostPath scenario5 (stateAt scenario5 t1) .b .e [.b, .d, .e] 3 ∧
    IsMinCostPath scenario5 (stateAt scenario5 t1) .a .e [.a, .b, .d, .e] 4 ∧
    IsSimplePath scenario5 (stateAt scenario5 t1) .a .e [.a, .c, .d, .e] 5 ∧
    4 < 5 := by
  rw [stateAt_scenario5_before h0, stateAt_scenario5_between h30 h75]
  exact ⟨scenario5_up_min, by decide, by decide, by decide, scenario5_down1_min_b,
    scenario5_down1_min_a, by decide, by decide⟩

/-- C4 at t = 0 s (before) and t = 30 s (the instant of the first teardown). -/
theorem scenario5_first_failure_witness :
    0 < 30 ∧ 30 ≤ 30 ∧ 30 < 75 ∧
    IsMinCostPath scenario5 (stateAt scenario5 0) .a .e [.a, .b, .e] 2 ∧
    IsMinCostPath scenario5 (stateAt scenario5 30) .b .e [.b, .d, .e] 3 ∧
    IsMinCostPath scenario5 (stateAt scenario5 30) .a .e [.a, .b, .d, .e] 4 :=
  have h := scenario5_first_failure 0 30 (by decide) (by decide) (by decide)
  ⟨by decide, by decide, by decide, h.1, h.2.2.2.2.1, h.2.2.2.2.2.1⟩

/-- C5. Scenario B, second failure: once both teardowns have run (B–E at t = 30 s, B–D at
t = 75 s), E is still reachable from A, A→C→D→E is the only simple path from A to E, and
its cost 1 + 3 + 1 = 5 is below the infinity sentinel 16. -/
theorem scenario5_second_failure (t : Nat) (h75 : 75 ≤ t) (_hstop : t ≤ scenario5.simStop) :
    stateAt scenario5 t .b 3 = false ∧ stateAt scenario5 t .e 1 = false ∧
    stateAt scenario5 t .b 2 = false ∧ stateAt scenario5 t .d 1 = false ∧
    IsMinCostPath scenario5 (stateAt scenario5 t) .a .e [.a, .c, .d, .e] 5 ∧
    (∀ p c, IsSimplePath scenario5 (stateAt scenario5 t) .a .e p c → p = [.a, .c, .d, .e]) ∧
    hopCost scenario5 (stateAt scenario5 t) .a .c = some 1 ∧
    hopCost scenario5 (stateAt scenario5 t) .c .d = some 3 ∧
    hopCost scenario5 (stateAt scenario5 t) .d .e = some 1 ∧
    1 + 3 + 1 = 5 ∧ 5 < infinity ∧ infinity = 16 := by
  rw [stateAt_scenario5_after h75]
  exact ⟨by decide, by decide, by decide, by decide, scenario5_down2_min, scenario5_down2_paths,
    by decide, by decide, by decide, by decide, by decide, by decide⟩

/-- C5 at the instant of the second teardown, t = 75 s. -/
theorem scenario5_second_failure_witness :
    75 ≤ 75 ∧ 75 ≤ scenario5.simStop ∧
    IsMinCostPath scenario5 (stateAt scenario5 75) .a .e [.a, .c, .d, .e] 5 :=
  ⟨by decide, by decide, (scenario5_second_failure 75 (by decide) (by decide)).2.2.2.2.1⟩

/-! ## `TearDownLink` -/

/-- C6. For all nodes and interface indices, one call of `TearDownLink` leaves interface
`interfaceA` of `nodeA` and interface `interfaceB` of `nodeB` down and every other interface
of every node as it was; scheduled as one event, the two ends go down at the same instant:
at any time the simulator has either not run the event or has both ends down. -/
theorem TearDownLink_frame (st : IfState) (nodeA nodeB : Node) (interfaceA interfaceB : Nat)
    (n : Node) (i : Nat) (hA : ¬ (n = nodeA ∧ i = interfaceA))
    (hB : ¬ (n = nodeB ∧ i = interfaceB)) (time t : Nat) :
    TearDownLink nodeA nodeB interfaceA interfaceB st nodeA interfaceA = false ∧
    TearDownLink nodeA nodeB interfaceA interfaceB st nodeB interfaceB = false ∧
    TearDownLink nodeA nodeB interfaceA interfaceB st n i = st n i ∧
    runUntil [⟨time, nodeA, nodeB, interfaceA, interfaceB⟩] t st
      = if time ≤ t then TearDownLink nodeA nodeB interfaceA interfaceB st else st := by
  refine ⟨?_, ?_, ?_, ?_⟩
  · simp [TearDownLink, SetDown]
  · simp [TearDownLink, SetDown]
  · simp [TearDownLink, SetDown, hA, hB]
  · by_cases h : time ≤ t <;> simp [runUntil, List.filter, h, Event.fire]

/-- C6 on the teardown of Scenario-1, observed at interface 1 of B. -/
theorem TearDownLink_frame_witness :
    TearDownLink .a .c 3 1 (initialState scenario1) .a 3 = false ∧
    TearDownLink .a .c 3 1 (initialState scenario1) .c 1 = false ∧
    TearDownLink .a .c 3 1 (initialState scenario1) .b 1 = initialState scenario1 .b 1 ∧
    initialState scenario1 .b 1 = true :=
  have h := TearDownLink_frame (initialState scenario1) .a .c 3 1 .b 1 (by decide) (by decide)
    30 30
  ⟨h.1, h.2.1, h.2.2.1, by decide⟩

/-! ## Policy selection -/

/-- C7. In both scenarios the policy is a total function of the `splitHorizonStrategy`
string: the three documented names select the three distinct policies, the default (no
argument) is `POISON_REVERSE`, and every other string, a differently-cased name included,
selects `POISON_REVERSE` as well. -/
theorem selectStrategy_spec :
    (selectStrategy1 "NoSplitHorizon" = .NO_SPLIT_HORIZON ∧
      selectStrategy1 "SplitHorizon" = .SPLIT_HORIZON ∧
      selectStrategy1 "PoisonReverse" = .POISON_REVERSE ∧
      selectStrategy1 (parseSplitHorizon none) = .POISON_REVERSE ∧
      (∀ s, selectStrategy1 (parseSplitHorizon (some s)) = selectStrategy1 s) ∧
      (∀ s, s ≠ "NoSplitHorizon" → s ≠ "SplitHorizon" → selectStrategy1 s = .POISON_REVERSE) ∧
      selectStrategy1 "poisonreverse" = .POISON_REVERSE ∧
      selectStrategy1 "splithorizon" = .POISON_REVERSE ∧
      selectStrategy1 "NOSPLITHORIZON" = .POISON_REVERSE ∧
      selectStrategy1 "" = .POISON_REVERSE) ∧
    (selectStrategy5 "NoSplitHorizon" = .NO_SPLIT_HORIZON ∧
      selectStrategy5 "SplitHorizon" = .SPLIT_HORIZON ∧
      selectStrategy5 "PoisonReverse" = .POISON_REVERSE ∧
      selectStrategy5 (parseSplitHorizon none) = .POISON_REVERSE ∧
      (∀ s, selectStrategy5 (parseSplitHorizon (some s)) = selectStrategy5 s) ∧
      (∀ s, s ≠ "NoSplitHorizon" → s ≠ "SplitHorizon" → selectStrategy5 s = .POISON_REVERSE) ∧
      selectStrategy5 "poisonreverse" = .POISON_REVERSE ∧
      selectStrategy5 "splithorizon" = .POISON_REVERSE ∧
      selectStrategy5 "NOSPLITHORIZON" = .POISON_REVERSE ∧
      selectStrategy5 "" = .POISON_REVERSE) ∧
    (SplitHorizonType.NO_SPLIT_HORIZON ≠ SplitHorizonType.SPLIT_HORIZON ∧
      SplitHorizonType.NO_SPLIT_HORIZON ≠ SplitHorizonType.POISON_REVERSE ∧
      SplitHorizonType.SPLIT_HORIZON ≠ SplitHorizonType.POISON_REVERSE) := by
  refine ⟨⟨by decide, by decide, by decide, by decide, fun s => rfl, ?_, by decide, by decide,
    by decide, by decide⟩, ⟨by decide, by decide, by decide, by decide, fun s => rfl, ?_,
    by decide, by decide, by decide, by decide⟩, by decide, by decide, by decide⟩
  · intro s h1 h2
    simp [selectStrategy1, h1, h2]
  · intro s h1 h2
    simp [selectStrategy5, h1, h2]

/-! ## Configured costs, teardown arguments and exclusions -/

/-- C8. The costs set in code are those of the headers, the same at both ends of a link:
in Scenario-1 A–B = 5, A–C = 2, B–D = 3, C–D = 4; in Scenario-5 B–D = 2 and C–D = 3, every
`SetInterfaceMetric` call is on one of these two links and all other interfaces keep the
default 1; every configured cost is positive and below the infinity sentinel 16. -/
theorem configured_costs_match_headers :
    (∀ l ∈ headerCosts1,
      endCost scenario1 l.1 l.2.1 = some l.2.2 ∧ endCost scenario1 l.2.1 l.1 = some l.2.2) ∧
    (endCost scenario1 .a .b = some 5 ∧ endCost scenario1 .b .a = some 5 ∧
      endCost scenario1 .a .c = some 2 ∧ endCost scenario1 .c .a = some 2 ∧
      endCost scenario1 .b .d = some 3 ∧ endCost scenario1 .d .b = some 3 ∧
      endCost scenario1 .c .d = some 4 ∧ endCost scenario1 .d .c = some 4) ∧
    (∀ call ∈ scenario1.metrics,
      (networkOf scenario1 call.1 call.2.1).map (costsOn scenario1)
        = some [some call.2.2, some call.2.2]) ∧
    (List.range scenario1.nets.length).map (costsOn scenario1)
      = [[some 1, some 1], [some 5, some 5], [some 2, some 2], [some 3, some 3],
          [some 4, some 4], [some 1, some 1]] ∧
    (∀ l ∈ headerCosts5,
      endCost scenario5 l.1 l.2.1 = some l.2.2 ∧ endCost scenario5 l.2.1 l.1 = some l.2.2) ∧
    (endCost scenario5 .b .d = some 2 ∧ endCost scenario5 .d .b = some 2 ∧
      endCost scenario5 .c .d = some 3 ∧ endCost scenario5 .d .c = some 3) ∧
    (∀ call ∈ scenario5.metrics,
      segmentAt scenario5 call.1 call.2.1 = some [.b, .d] ∨
      segmentAt scenario5 call.1 call.2.1 = some [.c, .d]) ∧
    (∀ call ∈ scenario5.metrics,
      (networkOf scenario5 call.1 call.2.1).map (costsOn scenario5)
        = some [some call.2.2, some call.2.2]) ∧
    (List.range scenario5.nets.length).map (costsOn scenario5)
      = [[some 1, some 1], [some 1, some 1], [some 1, some 1], [some 2, some 2],
          [some 1, some 1], [some 3, some 3], [some 1, some 1], [some 1, some 1]] ∧
    (∀ call ∈ scenario1.metrics ++ scenario5.metrics, 0 < call.2.2 ∧ call.2.2 < infinity) ∧
    infinity = 16 := by
  refine ⟨by decide, by decide, by decide, by decide, by decide, by decide, by decide,
    by decide, by decide, by decide, by decide⟩

/-- C9. Every scheduled teardown names the two ends of one link: for each scheduled
`TearDownLink (x, y, i, j)`, `x ≠ y`, interface `i` of `x` and interface `j` of `y` are on
the same segment, and that segment is the two-node network of `x` and `y`; the links are
A–C in Scenario-1 and B–E, then B–D, in Scenario-5, as the headers say. -/
theorem teardowns_name_one_link :
    (∀ ev ∈ scenario1.teardowns,
      ev.nodeA ≠ ev.nodeB ∧ 1 ≤ ev.interfaceA ∧ 1 ≤ ev.interfaceB ∧
      (networkOf scenario1 ev.nodeA ev.interfaceA).isSome ∧
      networkOf scenario1 ev.nodeA ev.interfaceA = networkOf scenario1 ev.nodeB ev.interfaceB ∧
      segmentAt scenario1 ev.nodeA ev.interfaceA = some [ev.nodeA, ev.nodeB]) ∧
    (∀ ev ∈ scenario5.teardowns,
      ev.nodeA ≠ ev.nodeB ∧ 1 ≤ ev.interfaceA ∧ 1 ≤ ev.interfaceB ∧
      (networkOf scenario5 ev.nodeA ev.interfaceA).isSome ∧
      networkOf scenario5 ev.nodeA ev.interfaceA = networkOf scenario5 ev.nodeB ev.interfaceB ∧
      segmentAt scenario5 ev.nodeA ev.interfaceA = some [ev.nodeA, ev.nodeB]) ∧
    scenario1.teardowns = [⟨30, .a, .c, 3, 1⟩] ∧
    scenario5.teardowns = [⟨30, .b, .e, 3, 1⟩, ⟨75, .b, .d, 2, 1⟩] ∧
    (segmentAt scenario1 .a 3 = some [.a, .c] ∧ segmentAt scenario1 .c 1 = some [.a, .c]) ∧
    (segmentAt scenario5 .b 3 = some [.b, .e] ∧ segmentAt scenario5 .e 1 = some [.b, .e]) ∧
    (segmentAt scenario5 .b 2 = some [.b, .d] ∧ segmentAt scenario5 .d 1 = some [.b, .d]) ∧
    scenario1.teardowns.map (fun ev => (ev.nodeA, ev.nodeB)) = headerBreaks1 ∧
    scenario5.teardowns.map (fun ev => (ev.nodeA, ev.nodeB)) = headerBreaks5 := by
  refine ⟨by decide, by decide, by decide, by decide, by decide, by decide, by decide,
    by decide, by decide⟩

/-- No node of either scenario has more than three segments, so no interface beyond 3. -/
theorem segmentAt_none_of_gt (i : Nat) (n : Node) :
    segmentAt scenario1 n (i + 4) = none ∧ segmentAt scenario5 n (i + 4) = none := by
  have h1 : (attached scenario1 n).length ≤ 3 := by revert n; decide
  have h5 : (attached scenario5 n).length ≤ 3 := by revert n; decide
  constructor
  · simp only [segmentAt, networkOf]
    rw [List.getElem?_eq_none (by omega)]
    rfl
  · simp only [segmentAt, networkOf]
    rw [List.getElem?_eq_none (by omega)]
    rfl

/-- C10. In both scenarios the excluded interfaces are exactly the router interfaces on a
segment that holds a non-router node: (A, 1) on the SRC network and (D, 3), respectively
(E, 3), on the DST network; no interface on a router-to-router link is excluded, every
router interface facing SRC or DST is. -/
theorem excluded_iff_faces_host :
    (∀ r i, r ∈ scenario1.routers →
      ((r, i) ∈ scenario1.excluded ↔ facesHost scenario1 r i = true)) ∧
    (∀ r i, r ∈ scenario5.routers →
      ((r, i) ∈ scenario5.excluded ↔ facesHost scenario5 r i = true)) ∧
    (∀ x ∈ scenario1.excluded, x.1 ∈ scenario1.routers) ∧
    (∀ x ∈ scenario5.excluded, x.1 ∈ scenario5.routers) ∧
    scenario1.excluded = [(.a, 1), (.d, 3)] ∧ scenario5.excluded = [(.a, 1), (.e, 3)] ∧
    segmentAt scenario1 .a 1 = some [.src, .a] ∧ segmentAt scenario1 .d 3 = some [.d, .dst] ∧
    segmentAt scenario5 .a 1 = some [.src, .a] ∧ segmentAt scenario5 .e 3 = some [.e, .dst] := by
  refine ⟨?_, ?_, by decide, by decide, by decide, by decide, by decide, by decide, by decide,
    by decide⟩
  · intro r i _
    rcases i with _ | _ | _ | _ | i
    · revert r; decide
    · revert r; decide
    · revert r; decide
    · revert r; decide
    · show (r, i + 4) ∈ scenario1.excluded ↔ facesHost scenario1 r (i + 4) = true
      have hf : facesHost scenario1 r (i + 4) = false := by
        unfold facesHost
        rw [(segmentAt_none_of_gt i r).1]
      have hx : (r, i + 4) ∉ scenario1.excluded := by simp [scenario1]
      simp [hf, hx]
  · intro r i _
    rcases i with _ | _ | _ | _ | i
    · revert r; decide
    · revert r; decide
    · revert r; decide
    · revert r; decide
    · show (r, i + 4) ∈ scenario5.excluded ↔ facesHost scenario5 r (i + 4) = true
      have hf : facesHost scenario5 r (i + 4) = false := by
        unfold facesHost
        rw [(segmentAt_none_of_gt i r).2]
      have hx : (r, i + 4) ∉ scenario5.excluded := by simp [scenario5]
      simp [hf, hx]

/-! ## The timeline -/

set_option maxRecDepth 8000

/-- C11. The scheduled timeline is the documented one and the probing application observes
it: the teardown times are the documented break instants, in Scenario-5 the second one is
75 = 30 + 5 + 40; every teardown lies strictly between the application's start (1 s) and
stop, and the application stops strictly before the simulation does; sending one packet per
second from 1 s on, the application sends all its packets, the last one at 100 s
(Scenario-1) and 150 s (Scenario-5), and it sends one at each documented recovery instant:
61 s in Scenario-1, 35 s and 118 s in Scenario-5. -/
theorem timeline_matches_header :
    (scenario1.teardowns.map Event.time = breakInstants headerTimeline1 0 ∧
      scenario5.teardowns.map Event.time = breakInstants headerTimeline5 0 ∧
      scenario1.teardowns.map Event.time = [30] ∧
      scenario5.teardowns.map Event.time = [30, 75] ∧ 75 = 30 + 5 + 40) ∧
    (scenario1.appStart = 1 ∧ scenario5.appStart = 1 ∧
      (∀ ev ∈ scenario1.teardowns, scenario1.appStart < ev.time ∧ ev.time < scenario1.appStop) ∧
      (∀ ev ∈ scenario5.teardowns, scenario5.appStart < ev.time ∧ ev.time < scenario5.appStop) ∧
      scenario1.appStop < scenario1.simStop ∧ scenario5.appStop < scenario5.simStop ∧
      (1 < 30 ∧ 30 < scenario1.appStop ∧ scenario1.appStop = 110 ∧ scenario1.simStop = 120) ∧
      (1 < 30 ∧ 30 < 75 ∧ 75 < scenario5.appStop ∧ scenario5.appStop = 160 ∧
        scenario5.simStop = 170)) ∧
    (scenario1.interPacketInterval = 1 ∧ scenario5.interPacketInterval = 1 ∧
      (sendTimes scenario1).length = scenario1.maxPacketCount ∧
      (sendTimes scenario5).length = scenario5.maxPacketCount ∧
      (sendTimes scenario1).head? = some 1 ∧ (sendTimes scenario5).head? = some 1 ∧
      lastSend scenario1 = some 100 ∧ lastSend scenario5 = some 150) ∧
    (recoveryInstants headerTimeline1 0 = [30 + 31] ∧
      recoveryInstants headerTimeline5 0 = [30 + 5, 75 + 43] ∧
      30 + 31 = 61 ∧ 30 + 5 = 35 ∧ 75 + 43 = 118 ∧
      (∀ r ∈ recoveryInstants headerTimeline1 0,
        r ∈ sendTimes scenario1 ∧ ∀ last ∈ lastSend scenario1, r ≤ last) ∧
      (∀ r ∈ recoveryInstants headerTimeline5 0,
        r ∈ sendTimes scenario5 ∧ ∀ last ∈ lastSend scenario5, r ≤ last) ∧
      61 ≤ 100 ∧ 35 ≤ 150 ∧ 118 ≤ 150) := by
  refine ⟨by decide, by decide, ?_, ?_⟩
  · decide
  · decide

end RipNg
